import Mathlib

/-!
Shallow embedding of the record-keeping backend in `src/server.js`
(ledosportsacademy/records): the Member / Expense / Donation data model,
the Express route handlers for create / update / delete, and the
top-level GET route table.  The document store is modelled as an
in-memory list per collection; each handler is a pure function from
(store, request) to (result, new store), mirroring the sequential
control flow of the corresponding handler in `server.js`.
-/

namespace Records

/-- An embedded payment entry, from `memberSchema.payments` in
`src/server.js` lines 88-102: `date` and `week` are required strings,
`amount` is a required number with validator `min: 0`. -/
structure Payment where
  date : String
  amount : Int
  week : String
deriving DecidableEq, Repr

/-- A persisted Member document, from `memberSchema` in `src/server.js`
lines 56-103.  `photoUrl` is optional (the POST handler stores `null`
when absent), `payments` is an ordered embedded list. -/
structure Member where
  id : Int
  name : String
  phone : String
  address : String
  joinDate : String
  photoUrl : Option String
  payments : List Payment
deriving DecidableEq, Repr

/-- The JSON request body for POST /api/members and PUT /api/members/:id.
Every field may be absent (`none`); the handlers read each field with
JavaScript truthiness checks. -/
structure MemberBody where
  id : Option Int
  name : Option String
  phone : Option String
  address : Option String
  photoUrl : Option String
  joinDate : Option String
  payments : Option (List Payment)
deriving DecidableEq, Repr

/-- An in-memory Member document before it has been saved: the shape
handed to `new Member(memberData)` in the POST handler.  The `id` path
is `none` until something assigns it — the handler's `memberData`
(lines 164-171) carries no `id`, and the only assignment is in the
pre-save hook (lines 106-116), which runs at save time, after
validation. -/
structure MemberDraft where
  id : Option Int
  name : String
  phone : String
  address : String
  joinDate : String
  photoUrl : Option String
  payments : List Payment
deriving DecidableEq, Repr

/-- JavaScript truthiness of an optional string field of the request
body: `undefined`, `null` and the empty string are falsy. -/
def jsTruthy : Option String → Bool
  | some s => s ≠ ""
  | none => false

/-- Drop the whitespace characters heading a character list. -/
def trimLeadingWs : List Char → List Char
  | [] => []
  | c :: cs => if c.isWhitespace then trimLeadingWs cs else c :: cs

/-- JavaScript `String.prototype.trim` (also applied by the schema's
`trim: true` options): strip whitespace from both ends. -/
def jsTrim (s : String) : String :=
  ⟨(trimLeadingWs ((trimLeadingWs s.data).reverse)).reverse⟩

/-- Value of a nonempty decimal-digit prefix of a character list, or
`none` when the list does not start with a digit. -/
def digitsPrefixVal (cs : List Char) : Option Nat :=
  let ds := cs.takeWhile Char.isDigit
  if ds.isEmpty then none
  else some (ds.foldl (fun n c => 10 * n + (c.toNat - 48)) 0)

/-- Value of a hexadecimal digit character, `none` otherwise. -/
def hexDigitVal (c : Char) : Option Nat :=
  if c.isDigit then some (c.toNat - 48)
  else if 'a' ≤ c ∧ c ≤ 'f' then some (c.toNat - 87)
  else if 'A' ≤ c ∧ c ≤ 'F' then some (c.toNat - 55)
  else none

/-- Value of a nonempty hexadecimal-digit prefix of a character list,
or `none` when the list does not start with a hexadecimal digit. -/
def hexPrefixVal (cs : List Char) : Option Nat :=
  let ds := cs.takeWhile (fun c => (hexDigitVal c).isSome)
  if ds.isEmpty then none
  else some (ds.foldl (fun n c => 16 * n + (hexDigitVal c).getD 0) 0)

/-- The unsigned part of JavaScript `parseInt` with the radix left
undefined: a `0x`/`0X` prefix switches to hexadecimal and the longest
run of hexadecimal digits after it is read, otherwise the longest
decimal-digit prefix; `none` when no digit is found. -/
def unsignedParseInt : List Char → Option Nat
  | '0' :: 'x' :: rest => hexPrefixVal rest
  | '0' :: 'X' :: rest => hexPrefixVal rest
  | cs => digitsPrefixVal cs

/-- JavaScript `parseInt(s)` as used on path parameters in
`src/server.js` lines 187 and 238: skip surrounding whitespace, read an
optional sign, then either a `0x`/`0X`-prefixed hexadecimal digit run
or a decimal-digit prefix; `none` models the `NaN` result when no
digit is found. -/
def parseIntJs (s : String) : Option Int :=
  match (jsTrim s).data with
  | '-' :: rest => (unsignedParseInt rest).map (fun n => -(n : Int))
  | '+' :: rest => (unsignedParseInt rest).map (fun n => (n : Int))
  | cs => (unsignedParseInt cs).map (fun n => (n : Int))

/-- Schema validation of one payment entry (`src/server.js` lines
88-102): `date` and `week` required (nonempty), `amount ≥ 0`. -/
def validPayment (p : Payment) : Bool :=
  p.date ≠ "" && decide (0 ≤ p.amount) && p.week ≠ ""

/-- Schema validation of a document, as run by the explicit
`member.validate()` at line 174 (`memberSchema`, lines 56-103): `id`
is required — the check every freshly built `memberData` fails, since
its `id` is unset until the pre-save hook — `name`, `phone`,
`joinDate` are required (a required string path rejects the empty
string), and every embedded payment entry must be valid.  The
`Number.isInteger` validator and the pre-validate integer check hold
trivially of a set integer id in this model. -/
def validMemberFields (m : MemberDraft) : Bool :=
  m.id.isSome && m.name ≠ "" && m.phone ≠ "" && m.joinDate ≠ "" &&
    m.payments.all validPayment

/-- Validation run on the paths written by the update handler
(`findOneAndUpdate` with `runValidators: true`, lines 215-222): the
update sets `name`, `phone`, `address`, `photoUrl`, `payments`. -/
def validUpdateFields (m : Member) : Bool :=
  m.name ≠ "" && m.phone ≠ "" && m.payments.all validPayment

/-- `Member.findOne().sort({ id: -1 })` from the pre-save hook
(`src/server.js` line 109): the stored Member carrying the largest
`id`, or `none` when the collection is empty. -/
def findLastMember : List Member → Option Member
  | [] => none
  | m :: ms =>
    match findLastMember ms with
    | none => some m
    | some m2 => if m2.id ≤ m.id then some m else some m2

/-- The id assigned by the pre-save hook (`src/server.js` lines
106-116): `lastMember ? lastMember.id + 1 : 1`. -/
def nextMemberId (store : List Member) : Int :=
  match findLastMember store with
  | some lastMember => lastMember.id + 1
  | none => 1

/-- Outcome of POST /api/members: 201 with the saved document, or a
400 response (thrown `TypeError` on a missing `name`/`phone`, or a
mongoose `ValidationError`), in which case nothing was inserted. -/
inductive CreateMemberResult
  | created (member : Member) (store : List Member)
  | badRequest
deriving DecidableEq, Repr

/-- The `memberData` object built by the POST handler (`src/server.js`
lines 164-171), given the `name` and `phone` strings present in the
body: trims `name` and `phone`, applies the JavaScript truthy/falsy
defaults to `address`, `photoUrl`, `joinDate` and `payments`, and
carries no `id`. -/
def memberDataOf (today : String) (body : MemberBody) (n p : String) : MemberDraft :=
  { id := none
    name := jsTrim n
    phone := jsTrim p
    address := if jsTruthy body.address then jsTrim (body.address.getD "") else ""
    photoUrl := if jsTruthy body.photoUrl then some (jsTrim (body.photoUrl.getD "")) else none
    joinDate := if jsTruthy body.joinDate then body.joinDate.getD "" else today
    payments := body.payments.getD [] }

/-- The pre-save hook applied at insert time (`src/server.js` lines
106-116): on a new document, overwrite `id` with one plus the largest
stored id (1 on an empty store) and persist. -/
def saveDraft (store : List Member) (d : MemberDraft) : Member :=
  { id := nextMemberId store
    name := d.name
    phone := d.phone
    address := d.address
    joinDate := d.joinDate
    photoUrl := d.photoUrl
    payments := d.payments }

/-- POST /api/members handler (`src/server.js` lines 162-183).
Reading `.trim()` off a missing `name` or `phone` throws, caught as a
400; otherwise the handler builds `memberData` — without an `id` — and
awaits `member.validate()`.  The schema requires `id`, and the pre-save
hook that would assign it only runs later, at save time, so this
validation fails on the unset `id` for every request and the handler
answers 400; the insert branch, modelled by `saveDraft`, is
unreachable. -/
def createMember (today : String) (store : List Member) (body : MemberBody) :
    CreateMemberResult :=
  match body.name, body.phone with
  | some n, some p =>
    let memberData : MemberDraft := memberDataOf today body n p
    if validMemberFields memberData then
      let savedMember : Member := saveDraft store memberData
      .created savedMember (store ++ [savedMember])
    else .badRequest
  | _, _ => .badRequest

/-- The members collection after a POST /api/members request: unchanged
when the handler answered 400 before any insert. -/
def memberStoreAfterCreate (today : String) (store : List Member) (body : MemberBody) :
    List Member :=
  match createMember today store body with
  | .created _ s => s
  | .badRequest => store

/-- Outcome of PUT /api/members/:id: 200 with the updated document,
400 (`Invalid member ID`, missing `name`/`phone`, or a validator
failure), or 404 when no Member carries the target id. -/
inductive UpdateMemberResult
  | updated (member : Member)
  | badRequest
  | notFound
deriving DecidableEq, Repr

/-- The `updateData` object built by the PUT handler (`src/server.js`
lines 206-212): trims `name`/`phone`/`address`/`photoUrl` with the
same truthy defaults as creation and carries the existing `payments`
forward.  Applied as a `$set`, it leaves `id` and `joinDate` of the
existing document untouched. -/
def updateData (existingMember : Member) (body : MemberBody) : Member :=
  { existingMember with
    name := jsTrim (body.name.getD "")
    phone := jsTrim (body.phone.getD "")
    address := if jsTruthy body.address then jsTrim (body.address.getD "") else ""
    photoUrl := if jsTruthy body.photoUrl then some (jsTrim (body.photoUrl.getD "")) else none
    payments := existingMember.payments }

/-- PUT /api/members/:id handler (`src/server.js` lines 185-234).
Parses the path id (400 on `NaN`), looks up the existing member (404
when absent), requires truthy `name` and `phone` (400), builds the
update data and applies it with `runValidators: true` (400 on a
validator failure, nothing written).  Returns the result and the
collection after the request. -/
def updateMember (store : List Member) (idStr : String) (body : MemberBody) :
    UpdateMemberResult × List Member :=
  match parseIntJs idStr with
  | none => (.badRequest, store)
  | some memberId =>
    match store.find? (fun m => m.id == memberId) with
    | none => (.notFound, store)
    | some existingMember =>
      if !jsTruthy body.name || !jsTruthy body.phone then (.badRequest, store)
      else
        let updatedMember : Member := updateData existingMember body
        if validUpdateFields updatedMember then
          (.updated updatedMember,
           store.map (fun m => if m.id == memberId then updatedMember else m))
        else (.badRequest, store)

/-- Outcome of DELETE /api/members/:id: 200 with a confirmation
message, 400 on an unparsable id, or 404 when no Member matches. -/
inductive DeleteMemberResult
  | deleted
  | badRequest
  | notFound
deriving DecidableEq, Repr

/-- DELETE /api/members/:id handler (`src/server.js` lines 236-256):
parse the path id (400 on `NaN`), `findOneAndDelete({ id })` — remove
the first matching document — and 404 when nothing matched. -/
def deleteMember (store : List Member) (idStr : String) :
    DeleteMemberResult × List Member :=
  match parseIntJs idStr with
  | none => (.badRequest, store)
  | some memberId =>
    match store.find? (fun m => m.id == memberId) with
    | none => (.notFound, store)
    | some _ => (.deleted, store.eraseP (fun m => m.id == memberId))

/-- A persisted Expense document (`expenseSchema`, `src/server.js`
lines 129-135): every path optional, no validators. -/
structure Expense where
  id : Option Int
  date : Option String
  amount : Option Int
  category : Option String
  description : Option String
deriving DecidableEq, Repr

/-- A persisted Donation document (`donationSchema`, `src/server.js`
lines 137-143): every path optional, no validators. -/
structure Donation where
  id : Option Int
  date : Option String
  amount : Option Int
  donor : Option String
  purpose : Option String
deriving DecidableEq, Repr

/-- Whether the character list is a nonempty run of decimal digits
with nothing left over. -/
def allDigitsVal (cs : List Char) : Option Nat :=
  if cs.isEmpty || !cs.all Char.isDigit then none
  else some (cs.foldl (fun n c => 10 * n + (c.toNat - 48)) 0)

/-- Outcome of the cast mongoose applies to the string path parameter
in `findOneAndDelete({ id: req.params.id })` when the schema types
`id` as `Number`: an integer value, a finite non-integer value, or
`NaN` (which throws a `CastError`). -/
inductive NumberCast
  | intVal (n : Int)
  | nonIntNumber
  | castError
deriving DecidableEq, Repr

/-- Value of a decimal-digit list. -/
def decDigitsVal (ds : List Char) : Nat :=
  ds.foldl (fun n c => 10 * n + (c.toNat - 48)) 0

/-- Parse an unsigned decimal mantissa `digits[.digits]`: the digit
value, the count of fractional digits, and the remainder; `none` when
no digit is present. -/
def parseMantissa (cs : List Char) : Option (Nat × Nat × List Char) :=
  let ip := cs.takeWhile Char.isDigit
  let r1 := cs.dropWhile Char.isDigit
  match r1 with
  | '.' :: r2 =>
    let fp := r2.takeWhile Char.isDigit
    let r3 := r2.dropWhile Char.isDigit
    if ip.isEmpty && fp.isEmpty then none
    else some (decDigitsVal (ip ++ fp), fp.length, r3)
  | _ => if ip.isEmpty then none else some (decDigitsVal ip, 0, r1)

/-- Parse a signed decimal exponent filling the whole list. -/
def parseSignedExp : List Char → Option Int
  | '-' :: r => (allDigitsVal r).map (fun n => -(n : Int))
  | '+' :: r => (allDigitsVal r).map (fun n => (n : Int))
  | r => (allDigitsVal r).map (fun n => (n : Int))

/-- Parse the exponent part closing a decimal literal: the remainder
must be empty (exponent 0) or `e`/`E` followed by a signed digit
run. -/
def parseExpPart : List Char → Option Int
  | [] => some 0
  | 'e' :: rest => parseSignedExp rest
  | 'E' :: rest => parseSignedExp rest
  | _ => none

/-- The number `mantissa * 10 ^ (exp - frac)` as a cast outcome: an
integer value when the scaling leaves no fractional part, otherwise a
finite non-integer number. -/
def scaledValue (mant frac : Nat) (e : Int) : NumberCast :=
  let shift : Int := e - (frac : Int)
  if 0 ≤ shift then .intVal ((mant : Int) * (10 : Int) ^ shift.toNat)
  else
    let d : Nat := 10 ^ (-shift).toNat
    if mant % d == 0 then .intVal ((mant / d : Nat) : Int)
    else .nonIntNumber

/-- Cast an unsigned decimal literal `digits[.digits][e±digits]`. -/
def castUnsignedDec (cs : List Char) : NumberCast :=
  match parseMantissa cs with
  | none => .castError
  | some (mant, frac, rest) =>
    match parseExpPart rest with
    | none => .castError
    | some e => scaledValue mant frac e

/-- Negate an integer cast outcome. -/
def negCast : NumberCast → NumberCast
  | .intVal n => .intVal (-n)
  | c => c

/-- Value of a binary digit character. -/
def binDigitVal (c : Char) : Option Nat :=
  if c = '0' then some 0 else if c = '1' then some 1 else none

/-- Value of an octal digit character. -/
def octDigitVal (c : Char) : Option Nat :=
  if '0' ≤ c ∧ c ≤ '7' then some (c.toNat - 48) else none

/-- Value of a nonempty digit list in the given radix, `none` when
empty or holding a non-digit. -/
def radixVal (dv : Char → Option Nat) (radix : Nat) (cs : List Char) : Option Nat :=
  if cs.isEmpty then none
  else if cs.all (fun c => (dv c).isSome) then
    some (cs.foldl (fun n c => radix * n + (dv c).getD 0) 0)
  else none

/-- Cast a radix-prefixed integer literal body. -/
def castRadix (dv : Char → Option Nat) (radix : Nat) (cs : List Char) : NumberCast :=
  match radixVal dv radix cs with
  | some n => .intVal n
  | none => .castError

/-- JavaScript `Number(s)` as mongoose applies it to the path
parameter: after trimming, a radix-prefixed `0x`/`0b`/`0o` integer
literal (no sign allowed), or a signed decimal literal with optional
fraction and exponent; anything else is `NaN` and the query throws a
`CastError`, answered as 400.  An empty or all-whitespace string is
the number 0.  A finite non-integer value is a valid query that
matches no stored id (ids are modelled as integers). -/
def castNumberId (s : String) : NumberCast :=
  match (jsTrim s).data with
  | [] => .intVal 0
  | '0' :: 'x' :: r => castRadix hexDigitVal 16 r
  | '0' :: 'X' :: r => castRadix hexDigitVal 16 r
  | '0' :: 'b' :: r => castRadix binDigitVal 2 r
  | '0' :: 'B' :: r => castRadix binDigitVal 2 r
  | '0' :: 'o' :: r => castRadix octDigitVal 8 r
  | '0' :: 'O' :: r => castRadix octDigitVal 8 r
  | '-' :: r => negCast (castUnsignedDec r)
  | '+' :: r => castUnsignedDec r
  | r => castUnsignedDec r

/-- Outcome of DELETE /api/expenses/:id and /api/donations/:id: 204
with an empty body on every completed query (matched or not), 400 when
the query itself is rejected (id cast failure). -/
inductive DeleteRecordResult
  | noContent
  | badRequest
deriving DecidableEq, Repr

/-- DELETE /api/expenses/:id handler (`src/server.js` lines 278-285):
`findOneAndDelete({ id: req.params.id })` then 204 unconditionally —
the handler never inspects whether a document matched.  A non-integer
numeric id is a completed query matching nothing; only a cast failure
is answered 400. -/
def deleteExpense (store : List Expense) (idStr : String) :
    DeleteRecordResult × List Expense :=
  match castNumberId idStr with
  | .intVal n => (.noContent, store.eraseP (fun e => e.id == some n))
  | .nonIntNumber => (.noContent, store)
  | .castError => (.badRequest, store)

/-- DELETE /api/donations/:id handler (`src/server.js` lines 307-314):
identical to the Expense variant. -/
def deleteDonation (store : List Donation) (idStr : String) :
    DeleteRecordResult × List Donation :=
  match castNumberId idStr with
  | .intVal n => (.noContent, store.eraseP (fun d => d.id == some n))
  | .nonIntNumber => (.noContent, store)
  | .castError => (.badRequest, store)

/-- Responses of the top-level GET routes of the app (outside /api). -/
inductive GetResponse
  | indexHtml
  | healthJson (status : String) (mongodb : String)
deriving DecidableEq, Repr

/-- Body produced by the `/health` handler (`src/server.js` lines
325-330): `status: ok` and a storage-connectivity field driven by
`mongoose.connection.readyState === 1`. -/
def healthBody (connected : Bool) : GetResponse :=
  .healthJson "ok" (if connected then "connected" else "disconnected")

/-- Express path matching for the two literal patterns the app
registers with `app.get`: the `*` pattern matches every path. -/
def matchesPath (pattern path : String) : Bool :=
  pattern == "*" || pattern == path

/-- The `app.get` registrations of `src/server.js` outside the /api
router, in registration order: the catch-all serving
`public/index.html` (line 320) precedes the `/health` handler (line
325).  Each handler is a function of the storage-connection flag. -/
def appGetRoutes : List (String × (Bool → GetResponse)) :=
  [("*", fun _ => .indexHtml),
   ("/health", fun connected => healthBody connected)]

/-- Express dispatch of a GET request to a path outside /api: the
first registered route whose pattern matches handles the request. -/
def dispatchGet (connected : Bool) (path : String) : Option GetResponse :=
  (appGetRoutes.find? (fun r => matchesPath r.1 path)).map (fun r => r.2 connected)

/-! Concrete fixtures, following the scenario of spec.md §8, used to
instantiate the theorems below at evaluable inputs. -/

/-- A request body with every field absent. -/
def emptyBody : MemberBody :=
  { id := none, name := none, phone := none, address := none,
    photoUrl := none, joinDate := none, payments := none }

/-- A stored Member document with id 1, used as pre-existing store
state for the update and delete operations. -/
def ashaStored : Member :=
  { id := 1, name := "Asha", phone := "555-1000", address := "",
    joinDate := "2024-05-01", photoUrl := none, payments := [] }

/-- The scenario payment entry. -/
def payW1 : Payment := { date := "2024-01-01", amount := 100, week := "W1" }

/-- The scenario update request: renames Asha and smuggles a payments
list into the body. -/
def ashaUpdateBody : MemberBody :=
  { emptyBody with
    name := some "Asha K"
    phone := some "555-1000"
    payments := some [payW1] }

/-- The stored document after `ashaUpdateBody` is applied to
`ashaStored`. -/
def ashaUpdated : Member :=
  { ashaStored with name := "Asha K" }

/-- A creation request with every optional field supplied and
whitespace around every string. -/
def paddedBody : MemberBody :=
  { id := none, name := some " Asha ", phone := some " 555-1000 ",
    address := some " 12 Main St ", photoUrl := some " http:a.png ",
    joinDate := some "2024-01-02", payments := some [payW1] }

/-- A one-element Expense store. -/
def expenseOne : Expense :=
  { id := some 1, date := some "2024-02-01", amount := some 50,
    category := some "gear", description := none }

/-- A one-element Donation store. -/
def donationOne : Donation :=
  { id := some 1, date := some "2024-02-01", amount := some 75,
    donor := some "Ben", purpose := none }

/-- A creation request whose name is whitespace only. -/
def blankNameBody : MemberBody :=
  { emptyBody with
    name := some " "
    phone := some "555-1000" }

/-! ### Helper lemmas about the embedded operations -/

theorem findLastMember_eq_none {store : List Member} :
    findLastMember store = none ↔ store = [] := by
  cases store with
  | nil => simp [findLastMember]
  | cons m ms =>
    constructor
    · intro h
      rw [findLastMember] at h
      split at h
      · exact absurd h (by simp)
      · split at h <;> exact absurd h (by simp)
    · intro h
      exact absurd h (by simp)

theorem findLastMember_mem {store : List Member} {lm : Member}
    (h : findLastMember store = some lm) : lm ∈ store := by
  induction store with
  | nil => simp [findLastMember] at h
  | cons m ms ih =>
    rw [findLastMember] at h
    split at h
    · cases h
      exact List.mem_cons_self _ _
    · rename_i m2 hm2
      split at h
      · cases h
        exact List.mem_cons_self _ _
      · cases h
        exact List.mem_cons_of_mem _ (ih hm2)

theorem findLastMember_le {store : List Member} :
    ∀ {lm : Member}, findLastMember store = some lm → ∀ x ∈ store, x.id ≤ lm.id := by
  induction store with
  | nil => intro lm h; simp [findLastMember] at h
  | cons m ms ih =>
    intro lm h x hx
    rw [findLastMember] at h
    split at h
    · rename_i hnone
      cases h
      rcases List.mem_cons.mp hx with rfl | hx'
      · exact le_refl _
      · rw [findLastMember_eq_none.mp hnone] at hx'
        simp at hx'
    · rename_i m2 hm2
      have hms := ih hm2
      split at h
      · rename_i hle
        cases h
        rcases List.mem_cons.mp hx with rfl | hx'
        · exact le_refl _
        · exact le_trans (hms x hx') hle
      · rename_i hlt
        cases h
        rcases List.mem_cons.mp hx with rfl | hx'
        · omega
        · exact hms x hx'

/-- The id assigned at creation is 1 on an empty store, and otherwise
one more than the id of a stored member whose id is maximal. -/
theorem nextMemberId_spec (store : List Member) :
    (store = [] ∧ nextMemberId store = 1) ∨
    (∃ lm ∈ store, nextMemberId store = lm.id + 1 ∧ ∀ x ∈ store, x.id ≤ lm.id) := by
  cases hs : findLastMember store with
  | none =>
    left
    exact ⟨findLastMember_eq_none.mp hs, by simp [nextMemberId, hs]⟩
  | some lm =>
    right
    exact ⟨lm, findLastMember_mem hs, by simp [nextMemberId, hs], findLastMember_le hs⟩

/-- POST /api/members never succeeds: the explicit `validate()` runs
before the pre-save hook, finds the required `id` unset on the freshly
built `memberData`, and rejects, whatever the request body. -/
theorem createMember_never_succeeds (today : String) (store : List Member)
    (body : MemberBody) :
    createMember today store body = .badRequest := by
  simp only [createMember]
  split
  · simp [validMemberFields, memberDataOf]
  · rfl

/-- Everything a successful PUT /api/members/:id tells us: the parsed
id, the pre-existing document, the carried-over fields of the updated
document, and the shape of the new store. -/
theorem updateMember_updated_spec {store : List Member} {idStr : String}
    {body : MemberBody} {u : Member} {s' : List Member}
    (h : updateMember store idStr body = (.updated u, s')) :
    ∃ n existing, parseIntJs idStr = some n ∧
      store.find? (fun m => m.id == n) = some existing ∧
      u = updateData existing body ∧
      s' = store.map (fun m => if m.id == n then u else m) := by
  simp only [updateMember] at h
  split at h
  · exact absurd h (by simp)
  · rename_i n hn
    split at h
    · exact absurd h (by simp)
    · rename_i existing hfind
      split at h
      · exact absurd h (by simp)
      · split at h
        · simp only [Prod.mk.injEq, UpdateMemberResult.updated.injEq] at h
          obtain ⟨hu, hs⟩ := h
          subst hu
          exact ⟨n, existing, hn, hfind, rfl, hs.symm⟩
        · exact absurd h (by simp)

/-! ### Claim theorems -/

/-- C1 (code bug in `src/server.js`): the schema requires `id`, but
the POST handler only assigns it in the pre-save hook, which runs
after validation; the explicit `member.validate()` at line 174
therefore rejects every creation request with 400, the store never
grows, and no id is ever assigned — where the claim (and the evident
intent of the pre-save hook, whose `saveDraft` model would yield one
plus the maximum stored id) says the new id equals max + 1. -/
theorem createMember_never_assigns_id (today : String) (store : List Member)
    (body : MemberBody) :
    createMember today store body = .badRequest ∧
    memberStoreAfterCreate today store body = store := by
  have hbad := createMember_never_succeeds today store body
  exact ⟨hbad, by simp [memberStoreAfterCreate, hbad]⟩

/-- C2: a successful Member update leaves the payments sequence of the
targeted member exactly as stored before the update, whatever payments
value the request body carries. -/
theorem updateMember_preserves_payments (store : List Member) (idStr : String)
    (body : MemberBody) (u : Member) (s' : List Member)
    (hids : (store.map Member.id).Nodup)
    (h : updateMember store idStr body = (.updated u, s')) :
    ∀ m ∈ store, m.id = u.id →
      u.payments = m.payments ∧
      ∀ m' ∈ s', m'.id = u.id → m'.payments = m.payments := by
  obtain ⟨n, existing, hn, hfind, hu, hs⟩ := updateMember_updated_spec h
  have hmemex : existing ∈ store := List.mem_of_find?_eq_some hfind
  have hexid : existing.id = n := by simpa using List.find?_some hfind
  have huid : u.id = existing.id := by rw [hu]; rfl
  have hupay : u.payments = existing.payments := by rw [hu]; rfl
  intro m hm hmid
  have hmex : m = existing :=
    List.inj_on_of_nodup_map hids hm hmemex (by rw [hmid, huid])
  subst hmex
  refine ⟨hupay, ?_⟩
  intro m' hm' hm'id
  subst hs
  rcases List.mem_map.mp hm' with ⟨x, hx, hxm⟩
  by_cases hxid : (x.id == n) = true
  · rw [if_pos hxid] at hxm
    rw [← hxm, hupay]
  · rw [if_neg hxid] at hxm
    subst hxm
    exact absurd (by rw [hm'id, huid, hexid] ; simp) hxid

/-- C2 witness: updating Asha with a body that smuggles in a payment
list leaves her stored payments (the empty list) unchanged. -/
theorem updateMember_preserves_payments_witness :
    ashaUpdated.payments = ashaStored.payments :=
  (updateMember_preserves_payments [ashaStored] "1" ashaUpdateBody ashaUpdated [ashaUpdated]
    (by decide) (by decide) ashaStored (by simp) (by decide)).1

/-- C3: a Member creation request whose name or phone is missing, or
whose name or phone trims to the empty string, answers 400 and leaves
the store unchanged. -/
theorem createMember_blank_name_phone_rejected (today : String) (store : List Member)
    (body : MemberBody)
    (_h : body.name = none ∨ (∃ s, body.name = some s ∧ jsTrim s = "") ∨
         body.phone = none ∨ (∃ s, body.phone = some s ∧ jsTrim s = "")) :
    createMember today store body = .badRequest ∧
    memberStoreAfterCreate today store body = store := by
  have hbad := createMember_never_succeeds today store body
  exact ⟨hbad, by simp [memberStoreAfterCreate, hbad]⟩

/-- C3 witness: a whitespace-only name is rejected and the empty store
stays empty. -/
theorem createMember_blank_name_phone_rejected_witness :
    createMember "2024-05-01" [] blankNameBody = .badRequest ∧
    memberStoreAfterCreate "2024-05-01" [] blankNameBody = [] :=
  createMember_blank_name_phone_rejected "2024-05-01" [] blankNameBody
    (Or.inr (Or.inl ⟨" ", rfl, by decide⟩))

/-- C4 (code bug in `src/server.js`): the `memberData` the POST
handler builds is normalized exactly as claimed — `name`, `phone`,
`address` trimmed, `address` empty when absent, `photoUrl` trimmed
when truthy and null otherwise, `joinDate` defaulting to today,
`payments` to the empty list — and its `id` is unset; because of that
unset required `id`, `member.validate()` rejects the document, so no
record carrying these normalized fields is ever persisted: every
creation answers 400. -/
theorem memberData_normalized_but_never_persisted (today : String)
    (store : List Member) (body : MemberBody) (n p : String) :
    (memberDataOf today body n p).id = none ∧
    (memberDataOf today body n p).name = jsTrim n ∧
    (memberDataOf today body n p).phone = jsTrim p ∧
    (body.address = none → (memberDataOf today body n p).address = "") ∧
    (∀ a, body.address = some a → (memberDataOf today body n p).address = jsTrim a) ∧
    (∀ ph, body.photoUrl = some ph → ph ≠ "" →
       (memberDataOf today body n p).photoUrl = some (jsTrim ph)) ∧
    (body.photoUrl = none ∨ body.photoUrl = some "" →
       (memberDataOf today body n p).photoUrl = none) ∧
    (body.joinDate = none → (memberDataOf today body n p).joinDate = today) ∧
    (body.payments = none → (memberDataOf today body n p).payments = []) ∧
    createMember today store body = .badRequest := by
  refine ⟨rfl, rfl, rfl, ?_, ?_, ?_, ?_, ?_, ?_, createMember_never_succeeds today store body⟩
  · intro ha
    simp [memberDataOf, ha, jsTruthy]
  · intro a ha
    by_cases hae : a = ""
    · subst hae
      simp [memberDataOf, ha, jsTruthy]
      rfl
    · simp [memberDataOf, ha, jsTruthy, hae]
  · intro ph hph hne
    simp [memberDataOf, hph, jsTruthy, hne]
  · intro hph
    rcases hph with hph | hph <;> simp [memberDataOf, hph, jsTruthy]
  · intro hj
    simp [memberDataOf, hj, jsTruthy]
  · intro hpay
    simp [memberDataOf, hpay]

/-- C4 witness: on the fully padded request the built `memberData`
trims the supplied photoUrl, and the creation itself still answers
400. -/
theorem memberData_normalized_but_never_persisted_witness :
    (memberDataOf "2024-05-01" paddedBody " Asha " " 555-1000 ").photoUrl =
      some (jsTrim " http:a.png ") ∧
    createMember "2024-05-01" [] paddedBody = .badRequest :=
  ⟨(memberData_normalized_but_never_persisted "2024-05-01" [] paddedBody
      " Asha " " 555-1000 ").2.2.2.2.2.1 " http:a.png " rfl (by decide),
   (memberData_normalized_but_never_persisted "2024-05-01" [] paddedBody
      " Asha " " 555-1000 ").2.2.2.2.2.2.2.2.2⟩

/-- C5 (code bug in `src/server.js`): the catch-all route registered
at line 320 precedes the `/health` registration at line 325, so a GET
of /health is answered with the static shell in either connection
state and never with the health JSON the later handler would build. -/
theorem health_route_shadowed_by_catch_all :
    dispatchGet true "/health" = some GetResponse.indexHtml ∧
    dispatchGet false "/health" = some GetResponse.indexHtml ∧
    dispatchGet true "/health" ≠ some (healthBody true) ∧
    dispatchGet false "/health" ≠ some (healthBody false) := by decide

/-- C6: for Member update and delete, a path id that does not parse
answers 400 with the store unchanged, and a parsed id matching no
stored Member answers 404 with the store unchanged. -/
theorem memberUpdateDelete_id_errors (store : List Member) (idStr : String)
    (body : MemberBody) :
    (parseIntJs idStr = none →
       updateMember store idStr body = (.badRequest, store) ∧
       deleteMember store idStr = (.badRequest, store)) ∧
    (∀ n, parseIntJs idStr = some n → (∀ m ∈ store, m.id ≠ n) →
       updateMember store idStr body = (.notFound, store) ∧
       deleteMember store idStr = (.notFound, store)) := by
  constructor
  · intro hpar
    exact ⟨by simp [updateMember, hpar], by simp [deleteMember, hpar]⟩
  · intro n hpar habs
    have hfind : store.find? (fun m => m.id == n) = none := by
      rw [List.find?_eq_none]
      intro x hx
      simpa using habs x hx
    exact ⟨by simp [updateMember, hpar, hfind], by simp [deleteMember, hpar, hfind]⟩

/-- C6 witness: against a store holding only Asha (id 1), the ids
`abc` and `0xG` (hexadecimal prefix with no hexadecimal digit, NaN in
JavaScript) draw 400 from both operations, while `5` and `0x7`
(hexadecimal for 7) parse but match nothing and draw 404 from both,
the store surviving unchanged each time. -/
theorem memberUpdateDelete_id_errors_witness :
    (updateMember [ashaStored] "abc" emptyBody = (.badRequest, [ashaStored]) ∧
     deleteMember [ashaStored] "abc" = (.badRequest, [ashaStored])) ∧
    (updateMember [ashaStored] "0xG" emptyBody = (.badRequest, [ashaStored]) ∧
     deleteMember [ashaStored] "0xG" = (.badRequest, [ashaStored])) ∧
    (updateMember [ashaStored] "5" emptyBody = (.notFound, [ashaStored]) ∧
     deleteMember [ashaStored] "5" = (.notFound, [ashaStored])) ∧
    (updateMember [ashaStored] "0x7" emptyBody = (.notFound, [ashaStored]) ∧
     deleteMember [ashaStored] "0x7" = (.notFound, [ashaStored])) :=
  ⟨(memberUpdateDelete_id_errors [ashaStored] "abc" emptyBody).1 (by decide),
   (memberUpdateDelete_id_errors [ashaStored] "0xG" emptyBody).1 (by decide),
   (memberUpdateDelete_id_errors [ashaStored] "5" emptyBody).2 5 (by decide) (by decide),
   (memberUpdateDelete_id_errors [ashaStored] "0x7" emptyBody).2 7 (by decide) (by decide)⟩

/-- C7: deleting an Expense or a Donation by an id held by no stored
record succeeds as a 204 no-op with the collection unchanged — both
for an integer-valued id matching nothing and for a finite non-integer
numeric id, which can match no integer id at all. -/
theorem deleteRecord_missing_id_noop (estore : List Expense) (dstore : List Donation)
    (idStr : String) :
    (∀ n, castNumberId idStr = .intVal n → (∀ e ∈ estore, e.id ≠ some n) →
       deleteExpense estore idStr = (.noContent, estore)) ∧
    (castNumberId idStr = .nonIntNumber →
       deleteExpense estore idStr = (.noContent, estore)) ∧
    (∀ n, castNumberId idStr = .intVal n → (∀ d ∈ dstore, d.id ≠ some n) →
       deleteDonation dstore idStr = (.noContent, dstore)) ∧
    (castNumberId idStr = .nonIntNumber →
       deleteDonation dstore idStr = (.noContent, dstore)) := by
  refine ⟨?_, ?_, ?_, ?_⟩
  · intro n hcast habs
    have herase : estore.eraseP (fun e => e.id == some n) = estore :=
      List.eraseP_of_forall_not (by intro e he; simpa using habs e he)
    simp [deleteExpense, hcast, herase]
  · intro hcast
    simp [deleteExpense, hcast]
  · intro n hcast habs
    have herase : dstore.eraseP (fun d => d.id == some n) = dstore :=
      List.eraseP_of_forall_not (by intro d hd; simpa using habs d hd)
    simp [deleteDonation, hcast, herase]
  · intro hcast
    simp [deleteDonation, hcast]

/-- C7 witness: deleting id 2, or the non-integer id 2.5, from
one-record stores holding id 1 answers 204 and leaves both stores
unchanged. -/
theorem deleteRecord_missing_id_noop_witness :
    deleteExpense [expenseOne] "2" = (.noContent, [expenseOne]) ∧
    deleteExpense [expenseOne] "2.5" = (.noContent, [expenseOne]) ∧
    deleteDonation [donationOne] "2" = (.noContent, [donationOne]) ∧
    deleteDonation [donationOne] "2.5" = (.noContent, [donationOne]) :=
  ⟨(deleteRecord_missing_id_noop [expenseOne] [donationOne] "2").1 2 (by decide) (by decide),
   (deleteRecord_missing_id_noop [expenseOne] [donationOne] "2.5").2.1 (by decide),
   (deleteRecord_missing_id_noop [expenseOne] [donationOne] "2").2.2.1 2 (by decide) (by decide),
   (deleteRecord_missing_id_noop [expenseOne] [donationOne] "2.5").2.2.2 (by decide)⟩

/-- C8 (code bug in `src/server.js`): a client-supplied id in a
creation request is indeed never read — a body with one behaves
exactly as a body without — and no update changes a stored id; but the
claim's system-assigned value never exists: every creation answers 400
at `member.validate()` on the required `id` the pre-save hook has not
yet assigned, so no id is ever assigned at all. -/
theorem member_id_never_system_assigned (today : String) (store : List Member)
    (body : MemberBody) (idStr : String) (v : Int) :
    createMember today store { body with id := some v } =
      createMember today store { body with id := none } ∧
    createMember today store body = .badRequest ∧
    (updateMember store idStr body).2.map Member.id = store.map Member.id := by
  refine ⟨?_, createMember_never_succeeds today store body, ?_⟩
  · rcases body with ⟨bid, bname, bphone, baddr, bphoto, bjoin, bpay⟩
    cases bname <;> cases bphone <;> rfl
  · simp only [updateMember]
    split
    · rfl
    · rename_i n hn
      split
      · rfl
      · rename_i existing hfind
        split
        · rfl
        · split
          · rw [List.map_map]
            apply List.map_congr_left
            intro x hx
            simp only [Function.comp_apply]
            by_cases hxid : (x.id == n) = true
            · rw [if_pos hxid]
              have h1 : existing.id = n := by simpa using List.find?_some hfind
              have h2 : x.id = n := by simpa using hxid
              show (updateData existing body).id = x.id
              rw [show (updateData existing body).id = existing.id from rfl, h1, h2]
            · rw [if_neg hxid]
          · rfl

/-- C9: a successful Member update leaves the joinDate of the targeted
member exactly as stored before the update; any joinDate in the request
body is never read. -/
theorem updateMember_preserves_joinDate (store : List Member) (idStr : String)
    (body : MemberBody) (u : Member) (s' : List Member)
    (hids : (store.map Member.id).Nodup)
    (h : updateMember store idStr body = (.updated u, s')) :
    ∀ m ∈ store, m.id = u.id →
      u.joinDate = m.joinDate ∧
      ∀ m' ∈ s', m'.id = u.id → m'.joinDate = m.joinDate := by
  obtain ⟨n, existing, hn, hfind, hu, hs⟩ := updateMember_updated_spec h
  have hmemex : existing ∈ store := List.mem_of_find?_eq_some hfind
  have hexid : existing.id = n := by simpa using List.find?_some hfind
  have huid : u.id = existing.id := by rw [hu]; rfl
  have hujoin : u.joinDate = existing.joinDate := by rw [hu]; rfl
  intro m hm hmid
  have hmex : m = existing :=
    List.inj_on_of_nodup_map hids hm hmemex (by rw [hmid, huid])
  subst hmex
  refine ⟨hujoin, ?_⟩
  intro m' hm' hm'id
  subst hs
  rcases List.mem_map.mp hm' with ⟨x, hx, hxm⟩
  by_cases hxid : (x.id == n) = true
  · rw [if_pos hxid] at hxm
    rw [← hxm, hujoin]
  · rw [if_neg hxid] at hxm
    subst hxm
    exact absurd (by rw [hm'id, huid, hexid] ; simp) hxid

/-- C9 witness: the scenario update, whose body omits joinDate, keeps
Asha's stored joinDate. -/
theorem updateMember_preserves_joinDate_witness :
    ashaUpdated.joinDate = ashaStored.joinDate :=
  (updateMember_preserves_joinDate [ashaStored] "1" ashaUpdateBody ashaUpdated [ashaUpdated]
    (by decide) (by decide) ashaStored (by simp) (by decide)).1

/-- C10: Member update is a fixed-field replacement: on success the
stored updated document has address overwritten with the empty string
when the request omits address, and photoUrl overwritten with null
when the request omits photoUrl, whatever was stored before. -/
theorem updateMember_overwrites_omitted_fields (store : List Member) (idStr : String)
    (body : MemberBody) (u : Member) (s' : List Member)
    (h : updateMember store idStr body = (.updated u, s')) :
    u ∈ s' ∧
    (body.address = none → u.address = "") ∧
    (body.photoUrl = none → u.photoUrl = none) := by
  obtain ⟨n, existing, hn, hfind, hu, hs⟩ := updateMember_updated_spec h
  have hmemex : existing ∈ store := List.mem_of_find?_eq_some hfind
  have hexid : existing.id = n := by simpa using List.find?_some hfind
  refine ⟨?_, ?_, ?_⟩
  · subst hs
    have hmap := List.mem_map_of_mem (fun m => if m.id == n then u else m) hmemex
    simpa [hexid] using hmap
  · intro ha
    subst hu
    simp [updateData, ha, jsTruthy]
  · intro hp
    subst hu
    simp [updateData, hp, jsTruthy]

/-- C10 witness: the scenario update omits address and photoUrl; the
stored updated record carries the empty address and a null photoUrl. -/
theorem updateMember_overwrites_omitted_fields_witness :
    ashaUpdated ∈ [ashaUpdated] ∧ ashaUpdated.address = "" ∧ ashaUpdated.photoUrl = none :=
  ⟨(updateMember_overwrites_omitted_fields [ashaStored] "1" ashaUpdateBody ashaUpdated
      [ashaUpdated] (by decide)).1,
   (updateMember_overwrites_omitted_fields [ashaStored] "1" ashaUpdateBody ashaUpdated
      [ashaUpdated] (by decide)).2.1 rfl,
   (updateMember_overwrites_omitted_fields [ashaStored] "1" ashaUpdateBody ashaUpdated
      [ashaUpdated] (by decide)).2.2 rfl⟩

end Records
